import Mathlib

/-
Shallow embedding of the mochi_to_grok exporter (src/src/main.py) in Lean 4.

The script resolves a deck name to an id over a paginated decks endpoint
(get_deck_id), fetches all cards of the deck over a paginated cards endpoint
(get_cards), parses each card into a {pinyin, hanzi, meaning, added} record
(parse_card), and serializes the records to a delimited text file
(write_vocab_to_file), with a module-level configuration load and a main()
that catches every exception raised inside it.

Python values handled by parse_card are dynamically typed, so cards are
embedded as a small inductive of Python/JSON values (PyVal); operations that
can raise in Python (attribute lookups on non-dicts, regex calls on
non-strings, datetime parsing) are embedded in the Except monad.
-/

/-- Python-style whitespace test: the characters matched by the regex class
\s and stripped by str.strip (restricted to its ASCII members, the only ones
relevant here). -/
def isPySpace (c : Char) : Bool :=
  c == ' ' || c == '\t' || c == '\n' || c == '\x0d' || c == '\x0b' || c == '\x0c'

/-- Dynamically typed values: the fragment of Python/JSON values that the
script's cards are built from (None, strings, and string-keyed dicts whose
entries keep insertion order). -/
inductive PyVal where
  | null
  | str (s : String)
  | obj (entries : List (String × PyVal))

/-- Embedding of Python dict.get(key, default): first entry wins; an
AttributeError is raised when the receiver is not a dict. -/
def pyGet (v : PyVal) (key : String) (dflt : PyVal) : Except String PyVal :=
  match v with
  | .obj kvs =>
    match kvs.find? (fun p => p.1 == key) with
    | some p => .ok p.2
    | none => .ok dflt
  | _ => .error "AttributeError: object has no attribute get"

/-- Embedding of Python dict.items() (iteration in insertion order); an
AttributeError is raised when the receiver is not a dict. -/
def pyItems (v : PyVal) : Except String (List (String × PyVal)) :=
  match v with
  | .obj kvs => .ok kvs
  | _ => .error "AttributeError: object has no attribute items"

/-- Coercion to str demanded by operations (re.search, re.sub, str.replace)
that raise a TypeError / AttributeError on non-string arguments. -/
def pyStr (v : PyVal) : Except String String :=
  match v with
  | .str s => .ok s
  | _ => .error "TypeError: expected string or bytes-like object"

/-- Python truthiness for the embedded values: None, the empty string and the
empty dict are falsy. -/
def pyFalsy (v : PyVal) : Bool :=
  match v with
  | .null => true
  | .str s => s == ""
  | .obj kvs => kvs.isEmpty

mutual

/-- Python repr of an embedded value (string escaping elided), used when a
non-string value reaches an f-string. -/
def pyRepr : PyVal → String
  | .null => "None"
  | .str s => "\x27" ++ s ++ "\x27"
  | .obj kvs => "\x7b" ++ pyReprEntries kvs ++ "\x7d"

/-- Comma-joined repr of dict entries. -/
def pyReprEntries : List (String × PyVal) → String
  | [] => ""
  | [(k, v)] => "\x27" ++ k ++ "\x27: " ++ pyRepr v
  | (k, v) :: rest => "\x27" ++ k ++ "\x27: " ++ pyRepr v ++ ", " ++ pyReprEntries rest

end

/-- Python str() as applied by an f-string: strings pass through, other
values render via repr (str(None) = "None", str of a dict = its repr). -/
def pyFStr (v : PyVal) : String :=
  match v with
  | .str s => s
  | v => pyRepr v

mutual

/-- Embedding of json.dumps(v, ensure_ascii=False) (string escaping elided),
used in the diagnostic messages of parse_card. -/
def jsonDumps : PyVal → String
  | .null => "null"
  | .str s => "\"" ++ s ++ "\""
  | .obj kvs => "\x7b" ++ jsonDumpsEntries kvs ++ "\x7d"

/-- Comma-joined JSON rendering of dict entries. -/
def jsonDumpsEntries : List (String × PyVal) → String
  | [] => ""
  | [(k, v)] => "\"" ++ k ++ "\": " ++ jsonDumps v
  | (k, v) :: rest => "\"" ++ k ++ "\": " ++ jsonDumps v ++ ", " ++ jsonDumpsEntries rest

end

/-- Helper for the regex search in parse_card: the characters of a lazy group
(.*?) read up to the first close paren, failing on a newline or the end of
input (the dot of the pattern does not match a newline). -/
def takeGroup : List Char → Option (List Char)
  | [] => none
  | ')' :: _ => some []
  | '\n' :: _ => none
  | c :: rest => (takeGroup rest).map (fun g => c :: g)

/-- Embedding of re.search applied to the pattern of one parenthesized lazy
group in parse_card: scan positions left to right; at an open paren take the
nearest close paren with no intervening newline; on failure keep scanning
from the next position. Returns the first captured group. -/
def firstParenGroup : List Char → Option (List Char)
  | [] => none
  | '(' :: rest =>
    match takeGroup rest with
    | some g => some g
    | none => firstParenGroup rest
  | _ :: rest => firstParenGroup rest

/-- One step of the substitution regex of parse_card (pattern: whitespace run,
a capital V, whitespace run): at the head position, if a match starts here
(maximal whitespace then a V), return the remainder after the maximal
trailing whitespace. -/
def matchVAt (l : List Char) : Option (List Char) :=
  match l.dropWhile isPySpace with
  | 'V' :: rest => some (rest.dropWhile isPySpace)
  | _ => none

/-- Fuel-driven worker for subV. Every iteration consumes at least one
character, so fuel equal to the length of the list is always sufficient. -/
def subVAux : Nat → List Char → List Char
  | 0, l => l
  | _ + 1, [] => []
  | fuel + 1, c :: cs =>
    match matchVAt (c :: cs) with
    | some rem => subVAux fuel rem
    | none => c :: subVAux fuel cs

/-- Embedding of re.sub applied in parse_card: every occurrence of a capital
V, together with the whitespace around it, is deleted (the regex matches any
V, not only a standalone token). -/
def subV (l : List Char) : List Char := subVAux l.length l

/-- Embedding of Python str.strip(): drop leading and trailing whitespace. -/
def pyStrip (l : List Char) : List Char :=
  ((l.dropWhile isPySpace).reverse.dropWhile isPySpace).reverse

/-- The hanzi transformation of parse_card: re.sub of the V pattern followed
by str.strip, on the character list of a field value. -/
def stripVStr (s : String) : String :=
  String.mk (pyStrip (subV s.data))

/-- Naive datetime (timezone discarded), the part of a Python datetime that
strftime("%Y-%m-%d %H:%M:%S") observes. -/
structure PyDatetime where
  year : Nat
  month : Nat
  day : Nat
  hour : Nat
  minute : Nat
  second : Nat

/-- Parse exactly n decimal digits into a number, returning the remainder. -/
def parseDigitsAux : Nat → Nat → List Char → Option (Nat × List Char)
  | 0, acc, cs => some (acc, cs)
  | n + 1, acc, cs =>
    match cs with
    | c :: rest =>
      if c.isDigit then parseDigitsAux n (acc * 10 + (c.toNat - 48)) rest else none
    | [] => none

/-- Expect one specific character at the head of the input. -/
def expectChar (c : Char) : List Char → Option (List Char)
  | x :: rest => if x = c then some rest else none
  | [] => none

/-- Gregorian leap-year rule. -/
def isLeapYear (y : Nat) : Bool :=
  (y % 4 == 0 && y % 100 != 0) || y % 400 == 0

/-- Days in a month, with the leap-year rule for February. -/
def daysInMonth (y m : Nat) : Nat :=
  if m = 2 then (if isLeapYear y then 29 else 28)
  else if m = 4 ∨ m = 6 ∨ m = 9 ∨ m = 11 then 30
  else 31

/-- Consume an optional UTC-offset suffix of the form +HH:MM or -HH:MM. -/
def parseOffset : List Char → Option (List Char)
  | [] => some []
  | c :: rest =>
    if c = '+' ∨ c = '-' then do
      let (h, r1) ← parseDigitsAux 2 0 rest
      let r2 ← expectChar ':' r1
      let (m, r3) ← parseDigitsAux 2 0 r2
      if h ≤ 23 ∧ m ≤ 59 then some r3 else none
    else none

/-- Consume an optional fractional-seconds suffix of the form .digits. -/
def parseFrac : List Char → List Char
  | '.' :: rest => rest.dropWhile (fun c => c.isDigit)
  | cs => cs

/-- Embedding of datetime.fromisoformat (library function, modelled on the
formats the script can feed it): YYYY-MM-DD, optionally followed by a T or
space separator, HH:MM:SS, optional fractional seconds and an optional
+HH:MM offset; none models the ValueError raised on any other string. -/
def fromisoformat (s : String) : Option PyDatetime := do
  let cs := s.data
  let (y, r1) ← parseDigitsAux 4 0 cs
  let r2 ← expectChar '-' r1
  let (mo, r3) ← parseDigitsAux 2 0 r2
  let r4 ← expectChar '-' r3
  let (d, r5) ← parseDigitsAux 2 0 r4
  if 1 ≤ mo ∧ mo ≤ 12 ∧ 1 ≤ d ∧ d ≤ daysInMonth y mo then
    match r5 with
    | [] => some ⟨y, mo, d, 0, 0, 0⟩
    | sep :: r6 =>
      if sep = 'T' ∨ sep = ' ' then do
        let (h, r7) ← parseDigitsAux 2 0 r6
        let r8 ← expectChar ':' r7
        let (mi, r9) ← parseDigitsAux 2 0 r8
        let r10 ← expectChar ':' r9
        let (sec, r11) ← parseDigitsAux 2 0 r10
        let r12 := parseFrac r11
        let r13 ← parseOffset r12
        if h ≤ 23 ∧ mi ≤ 59 ∧ sec ≤ 59 ∧ r13 = [] then some ⟨y, mo, d, h, mi, sec⟩
        else none
      else none
  else none

/-- Zero-padded decimal rendering used by strftime. -/
def padNum (width n : Nat) : String :=
  let s := toString n
  String.mk (List.replicate (width - s.length) '0') ++ s

/-- Embedding of strftime("%Y-%m-%d %H:%M:%S"). -/
def strftimeYmdHms (t : PyDatetime) : String :=
  padNum 4 t.year ++ "-" ++ padNum 2 t.month ++ "-" ++ padNum 2 t.day ++ " " ++
  padNum 2 t.hour ++ ":" ++ padNum 2 t.minute ++ ":" ++ padNum 2 t.second

/-- Normalized record produced by parse_card. In the Python source the
meaning and added slots hold whatever value the extraction produced; the
embedding applies the f-string rendering (pyFStr) at record construction
instead of at write time, which is observationally equal for the writer. -/
structure ParsedRec where
  pinyin : String
  hanzi : String
  meaning : String
  added : String
deriving DecidableEq, Repr

/-- The pinyin loop of parse_card: iterate the entries of
card.component-cache.pinyin in order, read entry.get("text", ""), search for
the first parenthesized group, and stop at the first entry with a match;
with no match anywhere pinyin stays empty. -/
def pinyinLoop : List (String × PyVal) → Except String String
  | [] => .ok ""
  | (_, v) :: rest => do
    let t ← pyGet v "text" (.str "")
    let s ← pyStr t
    match firstParenGroup s.data with
    | some g => .ok (String.mk g)
    | none => pinyinLoop rest

/-- The hanzi loop of parse_card: take the first entry of card.fields whose
key is not exactly "name", read its value, apply the V-substitution and
strip; the loop breaks after the first such entry unconditionally. -/
def hanziLoop : List (String × PyVal) → Except String String
  | [] => .ok ""
  | (fid, fdata) :: rest =>
    if fid ≠ "name" then do
      let fv ← pyGet fdata "value" (.str "")
      let s ← pyStr fv
      .ok (stripVStr s)
    else hanziLoop rest

/-- The meaning fallback of parse_card: when card.name is falsy, take the
first key of card.component-cache.translate as the meaning. -/
def meaningFallback (card : PyVal) (meaning : PyVal) : Except String PyVal :=
  if pyFalsy meaning then do
    let cc ← pyGet card "component-cache" (.obj [])
    let tr ← pyGet cc "translate" (.obj [])
    let entries ← pyItems tr
    match entries with
    | [] => .ok meaning
    | (k, _) :: _ => .ok (.str k)
  else .ok meaning

/-- Embedding of str.replace("Z", "+00:00"): every Z is replaced. -/
def replaceZ : List Char → List Char
  | [] => []
  | 'Z' :: rest => '+' :: '0' :: '0' :: ':' :: '0' :: '0' :: replaceZ rest
  | c :: rest => c :: replaceZ rest

/-- The added extraction of parse_card: read card.created-at.date; when
truthy it must be a string, Z is normalized to +00:00, the result is parsed
by fromisoformat (a failure models the ValueError) and reformatted; when
falsy the raw value is kept. -/
def addedOfCard (card : PyVal) : Except String String := do
  let ca ← pyGet card "created-at" (.obj [])
  let caDate ← pyGet ca "date" (.str "")
  if pyFalsy caDate then .ok (pyFStr caDate)
  else do
    let s ← pyStr caDate
    match fromisoformat (String.mk (replaceZ s.data)) with
    | some t => .ok (strftimeYmdHms t)
    | none => .error "ValueError: Invalid isoformat string"

/-- The body of parse_card's try block, in source order (pinyin, hanzi,
meaning with fallback, added); any raising step aborts the whole
extraction, to be caught by parse_card. Returns the pinyin and hanzi
strings, the meaning value before f-string rendering (its truthiness decides
the skip), and the rendered added string. -/
def extractParts (card : PyVal) : Except String (String × String × PyVal × String) := do
  let cc ← pyGet card "component-cache" (.obj [])
  let pyn ← pyGet cc "pinyin" (.obj [])
  let entries ← pyItems pyn
  let pinyin ← pinyinLoop entries
  let fieldsVal ← pyGet card "fields" (.obj [])
  let fields ← pyItems fieldsVal
  let hanzi ← hanziLoop fields
  let meaning0 ← pyGet card "name" (.str "")
  let meaning ← meaningFallback card meaning0
  let added ← addedOfCard card
  .ok (pinyin, hanzi, meaning, added)

/-- Embedding of parse_card: run the extraction; on an exception log the
error with the raw card and return None; when pinyin, hanzi and meaning are
all empty or falsy, log the skip with the raw card and return None;
otherwise return the record. The second component collects the diagnostic
prints of this call. -/
def parse_card (card : PyVal) : Option ParsedRec × List String :=
  match extractParts card with
  | .error e =>
    (none, ["Error parsing card: " ++ e ++ ". Raw card: " ++ jsonDumps card])
  | .ok (pinyin, hanzi, meaning, added) =>
    if pinyin = "" ∧ hanzi = "" ∧ pyFalsy meaning then
      (none, ["Skipping card due to missing fields: " ++ jsonDumps card])
    else (some ⟨pinyin, hanzi, pyFStr meaning, added⟩, [])

/-- The filtering loop of write_vocab_to_file: parse every card and keep
the records of the cards that parsed. -/
def valid_cards (cards : List PyVal) : List ParsedRec :=
  cards.filterMap (fun c => (parse_card c).1)

/-- The four labelled lines written for one record (each f.write call of the
record loop of write_vocab_to_file). -/
def render_record (r : ParsedRec) : String :=
  "Pinyin: " ++ r.pinyin ++ "\n" ++
  "Hanzi: " ++ r.hanzi ++ "\n" ++
  "Meaning: " ++ r.meaning ++ "\n" ++
  "Added: " ++ r.added ++ "\n"

/-- The file content produced by the write loop of write_vocab_to_file: a
separator line after every record except the last. -/
def render_vocab : List ParsedRec → String
  | [] => ""
  | [r] => render_record r
  | r :: rest => render_record r ++ "---\n" ++ render_vocab rest

/-- Validation of the embedding against the worked example of the design
document: the sample card parses to the expected record, and the card with
empty component-cache, empty fields and empty name parses to None. -/
theorem parse_card_worked_example :
    (parse_card (.obj
      [("component-cache", .obj [("pinyin", .obj [("a", .obj [("text",
         .str "{没}(méi) {V}(V)")])])]),
       ("fields", .obj [("name", .obj [("value", .str "x")]),
         ("f1", .obj [("value", .str "没 V")])]),
       ("name", .str "not"),
       ("created-at", .obj [("date", .str "2023-01-01T10:00:00Z")])])).1 =
      some ⟨"méi", "没", "not", "2023-01-01 10:00:00"⟩ ∧
    (parse_card (.obj [("component-cache", .obj []), ("fields", .obj []),
      ("name", .str "")])).1 = none :=
  ⟨by decide, by decide⟩

/-- Deck object of the decks-listing endpoint, as accessed by get_deck_id
(deck["id"], deck["name"]). -/
structure Deck where
  id : String
  name : String
deriving DecidableEq, Repr

/-- One JSON page of a listing endpoint: data.get("docs", []) and
data.get("bookmark"). -/
structure Page (α : Type) where
  docs : List α
  bookmark : Option String
deriving DecidableEq, Repr

/-- Python truthiness of the bookmark read by data.get("bookmark"): an
absent bookmark (None) and an empty-string bookmark are falsy. -/
def bkFalsy : Option String → Bool
  | none => true
  | some b => b == ""

/-- Exceptions raised by the script outside parse_card, with the data their
messages carry. -/
inductive PyErr where
  | httpError (opName : String) (status : Nat) (text : String)
  | timeoutError (opName : String)
  | notFound (deckName : String)
deriving DecidableEq, Repr

/-- Message of each exception, as formatted by the source's f-strings. -/
def PyErr.message : PyErr → String
  | .httpError op status text =>
    "Failed to fetch " ++ op ++ ": " ++ toString status ++ " " ++ text
  | .timeoutError op =>
    "Failed to fetch " ++ op ++ " after retries: Read operation timed out"
  | .notFound deckName =>
    "Deck \x27" ++ deckName ++ "\x27 not found"

/-- Result of one client.get attempt: either a read timeout or a response
with a status code, a body text and the parsed JSON page. -/
inductive AttemptRes (α : Type) where
  | timeout
  | ok (status : Nat) (text : String) (page : Page α)
deriving DecidableEq, Repr

/-- Outcome of one execution of the retry for-loop shared (verbatim, up to
the operation name) by get_deck_id and get_cards: the page or the raised
exception, the responses not consumed, the backoff delays slept (in
seconds, in order), and the number of attempts made. -/
structure RetryOut (α : Type) where
  result : Except PyErr (Page α)
  rest : List (AttemptRes α)
  sleeps : List Nat
  attemptsMade : Nat
deriving Repr

/-- Embedding of the retry for-loop (for attempt in range(retries) with
retries = 3): a response with status other than 200 raises immediately; a
200 response is returned; a read timeout sleeps 2 ^ attempt seconds and
retries while attempts remain, and raises the timeout error on the last
attempt. The first argument lists the remaining attempt indices (initially
[0, 1, 2]); responses are consumed one per attempt from the second list
(none models a run needing more responses than the scenario provides). -/
def retryLoop (op : String) : List Nat → List (AttemptRes α) → Option (RetryOut α)
  | _, [] => none
  | [], _ => none
  | a :: restAttempts, r :: server =>
    match r with
    | .ok status text page =>
      if status ≠ 200 then some ⟨.error (.httpError op status text), server, [], 1⟩
      else some ⟨.ok page, server, [], 1⟩
    | .timeout =>
      if restAttempts.isEmpty then some ⟨.error (.timeoutError op), server, [], 1⟩
      else
        match retryLoop op restAttempts server with
        | none => none
        | some out => some ⟨out.result, out.rest, (2 ^ a) :: out.sleeps, out.attemptsMade + 1⟩

/-- The effect of the retry loop against a deterministic stateless server (a
function from URL to the response every attempt at that URL receives): a 200
response succeeds on the first attempt, another status raises at once, and a
timeout exhausts all three attempts and raises the timeout error. -/
def fetchUrl (op : String) (server : String → AttemptRes α) (url : String) :
    Except PyErr (Page α) :=
  match server url with
  | .timeout => .error (.timeoutError op)
  | .ok status text page =>
    if status ≠ 200 then .error (.httpError op status text) else .ok page

/-- Coherence of fetchUrl with the retry loop: on the three identical
responses a deterministic server supplies, the retry loop produces exactly
the fetchUrl result. -/
theorem fetchUrl_eq_retryLoop (op : String) (server : String → AttemptRes α) (url : String) :
    (retryLoop op [0, 1, 2] (List.replicate 3 (server url))).map RetryOut.result =
      some (fetchUrl op server url) := by
  cases h : server url with
  | timeout => simp [retryLoop, fetchUrl, h, List.replicate]
  | ok status text page =>
    by_cases hs : status = 200 <;>
      simp [retryLoop, fetchUrl, h, hs, List.replicate]

/-- Embedding of Python str.lower() (ASCII fragment), character by
character. -/
def pyLower (s : String) : String :=
  String.mk (s.data.map Char.toLower)

/-- Worker for get_deck_id's while-url loop, against a deterministic
stateless server and with explicit fuel bounding the number of loop
iterations (none models a run still looping when the fuel ends). Faithful to
the source's control flow: a falsy url exits the while loop and raises the
not-found error; a page whose docs contain a case-insensitive name match
returns its id; otherwise, when bookmark is falsy or docs is empty the
source's break leaves only the retry for-loop, so the while loop re-enters
with the url unchanged; only a truthy bookmark on a non-empty page moves url
to the bookmark continuation. -/
def get_deck_id_aux (base deckName : String) (server : String → AttemptRes Deck) :
    Nat → String → Option (Except PyErr String)
  | 0, _ => none
  | fuel + 1, url =>
    if url = "" then some (.error (.notFound deckName))
    else
      match fetchUrl "decks" server url with
      | .error e => some (.error e)
      | .ok page =>
        match page.docs.find? (fun d => pyLower d.name == pyLower deckName) with
        | some d => some (.ok d.id)
        | none =>
          if bkFalsy page.bookmark ∨ page.docs = [] then
            get_deck_id_aux base deckName server fuel url
          else
            match page.bookmark with
            | some b => get_deck_id_aux base deckName server fuel (base ++ "/decks?bookmark=" ++ b)
            | none => get_deck_id_aux base deckName server fuel url

/-- Embedding of get_deck_id: start the pagination at the decks listing URL. -/
def get_deck_id (base deckName : String) (server : String → AttemptRes Deck)
    (fuel : Nat) : Option (Except PyErr String) :=
  get_deck_id_aux base deckName server fuel (base ++ "/decks")

/-- First-page URL of get_cards (line 67 of the source). -/
def cards_first_url (base deckId : String) : String :=
  base ++ "/cards?deck-id=" ++ deckId ++ "&limit=100"

/-- Continuation URL of get_cards (line 87 of the source). -/
def cards_next_url (base bookmark : String) : String :=
  base ++ "/cards?bookmark=" ++ bookmark ++ "&limit=100"

/-- Worker for get_cards's while-url loop. Responses are consumed in request
order from a list; the result carries the accumulated cards (or the raised
exception) together with the list of URLs requested, in order. Faithful to
the source: the page's docs are appended, an empty docs page returns at
once, a falsy bookmark returns, and otherwise the loop continues at the
bookmark continuation URL. Fuel bounds the number of pages (none models a
scenario providing fewer responses than the run requests). -/
def get_cards_aux (base : String) :
    Nat → String → List (AttemptRes α) → Option (Except PyErr (List α) × List String)
  | 0, _, _ => none
  | fuel + 1, url, server =>
    match retryLoop "cards" [0, 1, 2] server with
    | none => none
    | some out =>
      match out.result with
      | .error e => some (.error e, [url])
      | .ok page =>
        if page.docs.isEmpty then some (.ok page.docs, [url])
        else
          match page.bookmark with
          | none => some (.ok page.docs, [url])
          | some b =>
            if b = "" then some (.ok page.docs, [url])
            else
              (get_cards_aux base fuel (cards_next_url base b) out.rest).map
                (fun pr => (pr.1.map (fun cs => page.docs ++ cs), url :: pr.2))

/-- Embedding of get_cards: start the pagination at the deck-filtered cards
URL. -/
def get_cards (base deckId : String) (fuel : Nat) (server : List (AttemptRes α)) :
    Option (Except PyErr (List α) × List String) :=
  get_cards_aux base fuel (cards_first_url base deckId) server

/-- Configuration object of the script (pydantic settings model). -/
structure MochiConfig where
  api_key : String
  api_base_url : String
  deck_name : String
  output_file : String
deriving DecidableEq, Repr

/-- Uppercasing (ASCII fragment), character by character, used for the
case-insensitive environment key matching. -/
def pyUpper (s : String) : String :=
  String.mk (s.data.map Char.toUpper)

/-- Environment lookup with the case-insensitive key matching of the
pydantic settings model (env_prefix MOCHI_, case_sensitive False). -/
def envLookup (env : List (String × String)) (key : String) : Option String :=
  (env.find? (fun p => pyUpper p.1 == key)).map (fun p => p.2)

/-- Embedding of the module-level configuration load: MOCHI_API_KEY is
required (its absence raises the configuration error, uncaught at module
level); the other fields fall back to the source's defaults. -/
def load_config (env : List (String × String)) : Except String MochiConfig :=
  match envLookup env "MOCHI_API_KEY" with
  | none =>
    .error "Configuration error: Ensure MOCHI_API_KEY is set in .env or environment variables."
  | some key =>
    .ok ⟨key,
      (envLookup env "MOCHI_API_BASE_URL").getD "https://app.mochi.cards/api",
      (envLookup env "MOCHI_DECK_NAME").getD "Chinese",
      (envLookup env "MOCHI_OUTPUT_FILE").getD "chinese_vocab.txt"⟩

/-- The external world a run interacts with: a deterministic decks server
and the sequence of responses of the cards endpoint. -/
structure World where
  deckServer : String → AttemptRes Deck
  cardServer : List (AttemptRes PyVal)

/-- How a call of main() ended: normally after writing, normally with the
no-cards early return, or normally after catching a fatal exception in the
top-level except block. -/
inductive MainOutcome where
  | completed
  | noCards
  | caught (e : PyErr)
deriving DecidableEq, Repr

/-- Observable result of a terminating main() call: its outcome and every
file opened for writing, as a (path, content) pair. -/
structure RunResult where
  outcome : MainOutcome
  files : List (String × String)
deriving DecidableEq, Repr

/-- Embedding of main(): resolve the deck id, fetch the cards, return early
when no cards were found, otherwise parse and write; every PyErr raised
inside is caught by the top-level except block and only printed. The one
file operation is the buffered overwrite performed by write_vocab_to_file.
none models a non-terminating or under-specified run. -/
def main_run (cfg : MochiConfig) (w : World) (fuel : Nat) : Option RunResult :=
  match get_deck_id cfg.api_base_url cfg.deck_name w.deckServer fuel with
  | none => none
  | some (.error e) => some ⟨.caught e, []⟩
  | some (.ok deckId) =>
    match get_cards cfg.api_base_url deckId fuel w.cardServer with
    | none => none
    | some (.error e, _) => some ⟨.caught e, []⟩
    | some (.ok cards, _) =>
      if cards.isEmpty then some ⟨.noCards, []⟩
      else some ⟨.completed, [(cfg.output_file, render_vocab (valid_cards cards))]⟩

/-- Observable result of the whole process: its exit code and the files it
wrote. -/
structure ProcResult where
  exitCode : Nat
  files : List (String × String)
deriving DecidableEq, Repr

/-- Embedding of the process: the module-level configuration load runs
before main(), outside any handler, so its exception terminates the process
with a traceback and exit code 1; otherwise main() runs and, catching every
exception it raises, always completes normally with exit code 0. -/
def runProcess (env : List (String × String)) (w : World) (fuel : Nat) :
    Option ProcResult :=
  match load_config env with
  | .error _ => some ⟨1, []⟩
  | .ok cfg => (main_run cfg w fuel).map (fun r => ⟨0, r.files⟩)

/-- Generic splitter used by the spec-side observers: cut a list at every
element satisfying p, dropping the separators (the list analogue of
str.split). Always returns at least one piece. -/
def splitOnP (p : α → Bool) : List α → List (List α)
  | [] => [[]]
  | x :: xs =>
    if p x then [] :: splitOnP p xs
    else
      match splitOnP p xs with
      | [] => [[x]]
      | q :: qs => (x :: q) :: qs

theorem splitOnP_ne_nil (p : α → Bool) (l : List α) : splitOnP p l ≠ [] := by
  cases l with
  | nil => simp [splitOnP]
  | cons x xs =>
    by_cases h : p x <;> simp only [splitOnP, h, if_true, if_false] <;>
      first
        | exact List.cons_ne_nil _ _
        | (cases hs : splitOnP p xs <;> simp)

theorem splitOnP_of_none (p : α → Bool) (l : List α) (h : ∀ x ∈ l, p x = false) :
    splitOnP p l = [l] := by
  induction l with
  | nil => rfl
  | cons x xs ih =>
    have hx : p x = false := h x (List.mem_cons_self x xs)
    have hxs : splitOnP p xs = [xs] := ih (fun y hy => h y (List.mem_cons_of_mem x hy))
    simp [splitOnP, hx, hxs]

theorem splitOnP_append_sep (p : α → Bool) (xs ys : List α) (y : α)
    (hxs : ∀ x ∈ xs, p x = false) (hy : p y = true) :
    splitOnP p (xs ++ y :: ys) = xs :: splitOnP p ys := by
  induction xs with
  | nil => simp [splitOnP, hy]
  | cons x rest ih =>
    have hx : p x = false := hxs x (List.mem_cons_self x rest)
    have hrest := ih (fun z hz => hxs z (List.mem_cons_of_mem x hz))
    simp only [List.cons_append, splitOnP, hx, if_false, Bool.false_eq_true,
      List.append_eq, hrest]

/-- Spec-side URL observer: the characters after the first question mark
(empty when the URL has no query part). -/
def afterQuery : List Char → List Char
  | [] => []
  | x :: xs => if x = '?' then xs else afterQuery xs

theorem afterQuery_append (xs ys : List Char) (h : ∀ x ∈ xs, x ≠ '?') :
    afterQuery (xs ++ ys) = afterQuery ys := by
  induction xs with
  | nil => rfl
  | cons x rest ih =>
    have hx := h x (List.mem_cons_self x rest)
    simp only [List.cons_append, afterQuery, if_neg hx]
    exact ih (fun z hz => h z (List.mem_cons_of_mem x hz))

/-- Spec-side URL observer: key of one key=value piece. -/
def paramKey (piece : List Char) : List Char :=
  piece.takeWhile (fun c => c ≠ '=')

/-- Spec-side URL observer: value of one key=value piece. -/
def paramVal (piece : List Char) : List Char :=
  (piece.dropWhile (fun c => c ≠ '=')).drop 1

/-- Spec-side URL observer: the query parameters of a URL, as (key, value)
pairs in order. -/
def queryParams (url : String) : List (String × String) :=
  (splitOnP (fun c => c == '&') (afterQuery url.data)).map
    (fun piece => (String.mk (paramKey piece), String.mk (paramVal piece)))

/-- Spec-side URL observer: the value of the named query parameter, when
present. -/
def getParam (url key : String) : Option String :=
  ((queryParams url).find? (fun p => p.1 == key)).map (fun p => p.2)

/-- Spec-side reader: drop the single empty piece a trailing newline leaves
behind when a file's content is split into lines. -/
def stripLastEmpty (ls : List (List Char)) : List (List Char) :=
  match ls.reverse with
  | [] :: rest => rest.reverse
  | _ => ls

/-- Spec-side reader: the lines of a file's content. -/
def fileLinesOf (s : String) : List (List Char) :=
  stripLastEmpty (splitOnP (fun c => c == '\n') s.data)

/-- Spec-side reader: the blocks of a line list, cut at every separator
line that is exactly three dashes; the empty file has no blocks. -/
def blocksOf (ls : List (List Char)) : List (List (List Char)) :=
  if ls = [] then [] else splitOnP (fun l => l == "---".data) ls

/-- Spec-side reader: reconstruct one record from the four labelled lines
of a block. -/
def readBlock : List (List Char) → Option ParsedRec
  | [lp, lh, lm, la] =>
    if lp.take 8 = "Pinyin: ".data ∧ lh.take 7 = "Hanzi: ".data ∧
        lm.take 9 = "Meaning: ".data ∧ la.take 7 = "Added: ".data then
      some ⟨String.mk (lp.drop 8), String.mk (lh.drop 7),
        String.mk (lm.drop 9), String.mk (la.drop 7)⟩
    else none
  | _ => none

/-- The four labelled lines of one record, as the writer lays them out. -/
def recLines (r : ParsedRec) : List (List Char) :=
  ["Pinyin: ".data ++ r.pinyin.data, "Hanzi: ".data ++ r.hanzi.data,
   "Meaning: ".data ++ r.meaning.data, "Added: ".data ++ r.added.data]

/-- The lines of the whole file: each record's four lines with a separator
line between consecutive records. -/
def vocabLines : List ParsedRec → List (List Char)
  | [] => []
  | [r] => recLines r
  | r :: rest => recLines r ++ ["---".data] ++ vocabLines rest

/-- A record none of whose four fields contains a newline character. -/
def recNoNewline (r : ParsedRec) : Prop :=
  '\n' ∉ r.pinyin.data ∧ '\n' ∉ r.hanzi.data ∧
    '\n' ∉ r.meaning.data ∧ '\n' ∉ r.added.data

instance (r : ParsedRec) : Decidable (recNoNewline r) := by
  unfold recNoNewline
  infer_instance

/-- A page at which get_cards's pagination stops: empty docs or a falsy
bookmark. -/
def pageStops (p : Page α) : Bool :=
  p.docs.isEmpty || bkFalsy p.bookmark

/-- The prefix of a page sequence that get_cards consumes: everything up to
and including the first stopping page. -/
def consumedPages : List (Page α) → List (Page α)
  | [] => []
  | p :: rest => if pageStops p then [p] else p :: consumedPages rest

/-- A successful (status 200) response carrying the given page. -/
def okResp (p : Page α) : AttemptRes α :=
  .ok 200 "" p

/-- Configuration with the source's default base URL, deck name and output
file, and a dummy API key. -/
def cfg0 : MochiConfig :=
  ⟨"dummy-key", "https://app.mochi.cards/api", "Chinese", "chinese_vocab.txt"⟩

/-- Decks server of the C1 scenario: every request is answered 200 with a
single page whose docs hold one deck not named Chinese and whose bookmark is
absent — a one-page listing with no match. -/
def c1Server : String → AttemptRes Deck :=
  fun _ => okResp ⟨[⟨"deck-id-1", "Other"⟩], none⟩

theorem c1_step (n : Nat) (url : String) (h : url ≠ "") :
    get_deck_id_aux "https://app.mochi.cards/api" "Chinese" c1Server (n + 1) url =
      get_deck_id_aux "https://app.mochi.cards/api" "Chinese" c1Server n url := by
  show (if url = "" then some (Except.error (PyErr.notFound "Chinese"))
      else get_deck_id_aux "https://app.mochi.cards/api" "Chinese" c1Server n url) =
    get_deck_id_aux "https://app.mochi.cards/api" "Chinese" c1Server n url
  rw [if_neg h]

theorem c1_aux_none (fuel : Nat) (url : String) (h : url ≠ "") :
    get_deck_id_aux "https://app.mochi.cards/api" "Chinese" c1Server fuel url = none := by
  induction fuel with
  | zero => rfl
  | succ n ih => rw [c1_step n url h]; exact ih

/-- C1: the claim states that when no deck's name matches case-insensitively,
get_deck_id consumes every page exactly once and then fails with the
NotFound error naming the deck. The code violates this: the break taken when
the bookmark is absent (or docs is empty) leaves only the inner retry
for-loop, the while loop re-enters with the url unchanged and refetches the
same page forever, so the not-found raise after the loop is unreachable. On
a one-page listing with no match, the embedded get_deck_id returns none
(still looping) for every fuel bound, and in particular never produces the
NotFound error. -/
theorem c1_get_deck_id_never_not_found :
    ∀ fuel : Nat,
      get_deck_id "https://app.mochi.cards/api" "Chinese" c1Server fuel = none ∧
      get_deck_id "https://app.mochi.cards/api" "Chinese" c1Server fuel ≠
        some (.error (.notFound "Chinese")) := by
  intro fuel
  have h : get_deck_id "https://app.mochi.cards/api" "Chinese" c1Server fuel = none :=
    c1_aux_none fuel _ (by decide)
  refine ⟨h, ?_⟩
  rw [h]
  exact fun hc => Option.noConfusion hc

/-- World whose decks endpoint always answers 500, exhibiting an internal
failure inside main(). -/
def errWorld : World :=
  ⟨fun _ => .ok 500 "oops" ⟨[], none⟩, []⟩

/-- C2 counterexample: with MOCHI_API_KEY absent from the environment, the
configuration error is raised at module level, outside main()'s try/except,
and the process exits with code 1, not 0 — refuting the claim that every
fatal error (including the configuration error) is caught and the process
always exits 0. -/
theorem c2_counterexample :
    runProcess [] errWorld 1 = some ⟨1, []⟩ ∧ (1 : Nat) ≠ 0 :=
  ⟨rfl, by decide⟩

/-- C2 as amended: every fatal error raised inside main() (HTTP error,
timeout after retries, deck not found) is caught by main's top-level except
block and only printed, so whenever the configuration loads and main()
terminates, the process exits 0 — but a missing API key raises at module
level, before main(), and exits nonzero. -/
theorem c2_errors_in_main_exit_zero (env : List (String × String)) (w : World)
    (fuel : Nat) (cfg : MochiConfig) (r : RunResult)
    (hc : load_config env = .ok cfg) (hm : main_run cfg w fuel = some r) :
    runProcess env w fuel = some ⟨0, r.files⟩ := by
  simp [runProcess, hc, hm]

/-- C2 witness: a concrete run whose decks request fails with HTTP 500 is
caught in main() and the process still exits 0. -/
theorem c2_errors_in_main_exit_zero_witness :
    load_config [("MOCHI_API_KEY", "k")] =
      .ok ⟨"k", "https://app.mochi.cards/api", "Chinese", "chinese_vocab.txt"⟩ ∧
    main_run ⟨"k", "https://app.mochi.cards/api", "Chinese", "chinese_vocab.txt"⟩
        errWorld 1 = some ⟨.caught (.httpError "decks" 500 "oops"), []⟩ ∧
    runProcess [("MOCHI_API_KEY", "k")] errWorld 1 = some ⟨0, []⟩ :=
  ⟨rfl, rfl,
    c2_errors_in_main_exit_zero [("MOCHI_API_KEY", "k")] errWorld 1
      ⟨"k", "https://app.mochi.cards/api", "Chinese", "chinese_vocab.txt"⟩
      ⟨.caught (.httpError "decks" 500 "oops"), []⟩ rfl rfl⟩

/-- C3 counterexample: three consecutive read timeouts produce backoff
sleeps of 1s and 2s only — there is no 4s sleep, because the third failed
attempt raises instead of sleeping; the claim's delay list 1s, 2s, 4s after
each failed attempt is refuted. -/
theorem c3_counterexample :
    retryLoop "decks" [0, 1, 2]
        ([.timeout, .timeout, .timeout] : List (AttemptRes Deck)) =
      some ⟨.error (.timeoutError "decks"), [], [1, 2], 3⟩ ∧
    ([1, 2] : List Nat) ≠ [1, 2, 4] :=
  ⟨rfl, by decide⟩

/-- C3 as amended: each HTTP GET makes up to 3 total attempts on the same
request, sleeping 2 ^ attempt seconds after each failed attempt except the
last (delays 1s then 2s); three consecutive read timeouts cause exactly
three attempts and then the TimeoutError-kind error carrying the operation
name, while a success after k timeouts performs exactly the first k delays
and k + 1 attempts. -/
theorem c3_retry_backoff {α : Type} (op t : String) (page : Page α)
    (rest : List (AttemptRes α)) :
    retryLoop op [0, 1, 2] (.timeout :: .timeout :: .timeout :: rest) =
      some ⟨.error (.timeoutError op), rest, [1, 2], 3⟩ ∧
    retryLoop op [0, 1, 2] (.ok 200 t page :: rest) = some ⟨.ok page, rest, [], 1⟩ ∧
    retryLoop op [0, 1, 2] (.timeout :: .ok 200 t page :: rest) =
      some ⟨.ok page, rest, [1], 2⟩ ∧
    retryLoop op [0, 1, 2] (.timeout :: .timeout :: .ok 200 t page :: rest) =
      some ⟨.ok page, rest, [1, 2], 3⟩ :=
  ⟨rfl, rfl, rfl, rfl⟩

/-- Response of a successful page request consumed by the retry loop on its
first attempt. -/
theorem retryLoop_okResp {α : Type} (op : String) (p : Page α)
    (server : List (AttemptRes α)) :
    retryLoop op [0, 1, 2] (okResp p :: server) = some ⟨.ok p, server, [], 1⟩ := rfl

/-- C10: a response with any status other than 200 — other 2xx codes
included — makes the retry loop raise at once (one attempt, no sleep, no
retry) with the error carrying the status code and body text; accordingly
get_cards fails on such a response, and so does get_deck_id via its
deterministic-server fetch. -/
theorem c10_non_200_fails_immediately {α : Type} (op t base url deckName u : String)
    (status : Nat) (page : Page α) (dpage : Page Deck) (rest : List (AttemptRes α))
    (fuel : Nat) (server : String → AttemptRes Deck) (h : status ≠ 200) :
    retryLoop op [0, 1, 2] (.ok status t page :: rest) =
      some ⟨.error (.httpError op status t), rest, [], 1⟩ ∧
    get_cards_aux base (fuel + 1) url (.ok status t page :: rest) =
      some (.error (.httpError "cards" status t), [url]) ∧
    (server u = .ok status t dpage → u ≠ "" →
      get_deck_id_aux base deckName server (fuel + 1) u =
        some (.error (.httpError "decks" status t))) := by
  refine ⟨?_, ?_, fun hs hu => ?_⟩
  · simp [retryLoop, h]
  · simp [get_cards_aux, retryLoop, h]
  · simp [get_deck_id_aux, fetchUrl, hs, h, hu]

/-- Decks server answering 201 to every request, for the C10 witness. -/
def c10Server : String → AttemptRes Deck :=
  fun _ => .ok 201 "Created" ⟨[], none⟩

/-- C10 witness: a 201 response (a 2xx status that is not 200) fails all
three operations immediately. -/
theorem c10_non_200_fails_immediately_witness :
    (201 : Nat) ≠ 200 ∧
    (retryLoop "cards" [0, 1, 2]
        ([.ok 201 "Created" ⟨([] : List Nat), none⟩] : List (AttemptRes Nat)) =
      some ⟨.error (.httpError "cards" 201 "Created"), [], [], 1⟩ ∧
    get_cards_aux "b" 1 "u" ([.ok 201 "Created" ⟨([] : List Nat), none⟩]) =
      some (.error (.httpError "cards" 201 "Created"), ["u"]) ∧
    (c10Server "u" = .ok 201 "Created" ⟨[], none⟩ → "u" ≠ "" →
      get_deck_id_aux "b" "Chinese" c10Server 1 "u" =
        some (.error (.httpError "decks" 201 "Created")))) := by
  refine ⟨by decide, ?_⟩
  exact c10_non_200_fails_immediately "cards" "Created" "b" "u" "Chinese" "u" 201
    ⟨[], none⟩ ⟨[], none⟩ [] 0 c10Server (by decide)

theorem c7_aux {α : Type} (pages : List (Page α)) :
    ∀ (base url : String), (∃ p ∈ pages, pageStops p = true) →
      ∃ us, get_cards_aux base pages.length url (pages.map okResp) =
        some (.ok ((consumedPages pages).map Page.docs).flatten, us) := by
  induction pages with
  | nil => intro base url h; simp at h
  | cons p rest ih =>
    intro base url h
    by_cases hd : p.docs.isEmpty
    · refine ⟨[url], ?_⟩
      have hcp : consumedPages (p :: rest) = [p] := by
        simp [consumedPages, pageStops, hd]
      have hde : p.docs = [] := List.isEmpty_iff.mp hd
      simp [get_cards_aux, retryLoop_okResp, hd, hcp, hde]
    · have hde : ¬ p.docs = [] := fun he => hd (by simp [he])
      by_cases hb : bkFalsy p.bookmark
      · refine ⟨[url], ?_⟩
        have hcp : consumedPages (p :: rest) = [p] := by
          simp [consumedPages, pageStops, hb]
        cases hbk : p.bookmark with
        | none => simp [get_cards_aux, retryLoop_okResp, hd, hbk, hcp]
        | some b =>
          have hbe : b = "" := by
            simpa [bkFalsy, hbk] using hb
          simp [get_cards_aux, retryLoop_okResp, hd, hbk, hbe, hcp]
      · have hstop : ∃ q ∈ rest, pageStops q = true := by
          rcases h with ⟨q, hq, hqs⟩
          rcases List.mem_cons.mp hq with hq1 | hq2
          · exact absurd hqs (by simp [hq1, pageStops, hd, hb])
          · exact ⟨q, hq2, hqs⟩
        cases hbk : p.bookmark with
        | none => exact absurd (by simp [bkFalsy, hbk]) hb
        | some b =>
          have hbe : ¬ b = "" := by
            intro he
            exact hb (by simp [bkFalsy, hbk, he])
          rcases ih base (cards_next_url base b) hstop with ⟨us, hrec⟩
          refine ⟨url :: us, ?_⟩
          have hcp : consumedPages (p :: rest) = p :: consumedPages rest := by
            simp [consumedPages, pageStops, hd, hb]
          simp [get_cards_aux, retryLoop_okResp, hd, hbk, hbe, hcp, hrec, Except.map]

/-- C7: against any finite sequence of 200 pages containing a stopping page
(empty docs or falsy bookmark), get_cards returns exactly the concatenation
of the docs arrays of the consumed prefix of pages — every page up to and
including the first stopping page — in page order with within-page order
preserved, and the result's length is the sum of those pages' docs lengths.
An empty-docs stopping page contributes nothing, so the result equals the
accumulated list both with and without it; a falsy-bookmark stopping page is
included. -/
theorem c7_get_cards_concatenation {α : Type} (base deckId : String)
    (pages : List (Page α)) (h : ∃ p ∈ pages, pageStops p = true) :
    (∃ us, get_cards base deckId pages.length (pages.map okResp) =
      some (.ok ((consumedPages pages).map Page.docs).flatten, us)) ∧
    (((consumedPages pages).map Page.docs).flatten).length =
      ((consumedPages pages).map (fun p => p.docs.length)).sum := by
  refine ⟨c7_aux pages base (cards_first_url base deckId) h, ?_⟩
  simp [List.length_flatten, List.map_map, Function.comp_def]

/-- C7 witness: a two-page fetch (two cards then one card, bookmark absent
on the second page) returns the three cards in concatenation order. -/
theorem c7_get_cards_concatenation_witness :
    (∃ p ∈ ([⟨[1, 2], some "b1"⟩, ⟨[3], none⟩] : List (Page Nat)),
      pageStops p = true) ∧
    ((∃ us, get_cards "base" "d7"
        ([⟨[1, 2], some "b1"⟩, ⟨[3], none⟩] : List (Page Nat)).length
        (([⟨[1, 2], some "b1"⟩, ⟨[3], none⟩] : List (Page Nat)).map okResp) =
      some (.ok ((consumedPages
        ([⟨[1, 2], some "b1"⟩, ⟨[3], none⟩] : List (Page Nat))).map Page.docs).flatten, us)) ∧
    (((consumedPages
        ([⟨[1, 2], some "b1"⟩, ⟨[3], none⟩] : List (Page Nat))).map Page.docs).flatten).length =
      ((consumedPages
        ([⟨[1, 2], some "b1"⟩, ⟨[3], none⟩] : List (Page Nat))).map
          (fun p => p.docs.length)).sum) := by
  refine ⟨⟨⟨[3], none⟩, by decide, by decide⟩, ?_⟩
  exact c7_get_cards_concatenation "base" "d7" [⟨[1, 2], some "b1"⟩, ⟨[3], none⟩]
    ⟨⟨[3], none⟩, by decide, by decide⟩

/-- A string safe to substitute into a query component: it contains none of
the URL separator characters. -/
def urlToken (s : String) : Prop :=
  ∀ c ∈ s.data, c ≠ '?' ∧ c ≠ '&' ∧ c ≠ '='

instance (s : String) : Decidable (urlToken s) := by
  unfold urlToken
  infer_instance

theorem paramKey_append (xs ys : List Char) (hx : ∀ x ∈ xs, x ≠ '=') :
    paramKey (xs ++ '=' :: ys) = xs := by
  unfold paramKey
  rw [List.takeWhile_append_of_pos (by simpa using hx)]
  simp

theorem paramVal_append (xs ys : List Char) (hx : ∀ x ∈ xs, x ≠ '=') :
    paramVal (xs ++ '=' :: ys) = ys := by
  unfold paramVal
  rw [List.dropWhile_append_of_pos (by simpa using hx)]
  simp

theorem get_cards_aux_urls {α : Type} (base : String) :
    ∀ (fuel : Nat) (url : String) (server : List (AttemptRes α))
      (r : Except PyErr (List α)) (us : List String),
      get_cards_aux base fuel url server = some (r, us) →
      ∃ tail, us = url :: tail ∧ ∀ u ∈ tail, ∃ b, u = cards_next_url base b := by
  intro fuel
  induction fuel with
  | zero => intro url server r us h; exact absurd h (by simp [get_cards_aux])
  | succ n ih =>
    intro url server r us h
    rw [get_cards_aux] at h
    split at h
    · exact Option.noConfusion h
    · split at h
      · simp only [Option.some.injEq, Prod.mk.injEq] at h
        exact ⟨[], h.2.symm, by simp⟩
      · split at h
        · simp only [Option.some.injEq, Prod.mk.injEq] at h
          exact ⟨[], h.2.symm, by simp⟩
        · split at h
          · simp only [Option.some.injEq, Prod.mk.injEq] at h
            exact ⟨[], h.2.symm, by simp⟩
          · split at h
            · simp only [Option.some.injEq, Prod.mk.injEq] at h
              exact ⟨[], h.2.symm, by simp⟩
            · rcases Option.map_eq_some'.mp h with ⟨pr, hrec, hf⟩
              rcases ih _ _ pr.1 pr.2 hrec with ⟨tail2, htl, htail⟩
              have hus : us = url :: pr.2 := (congrArg Prod.snd hf).symm
              refine ⟨pr.2, hus, ?_⟩
              intro u hu
              rw [htl] at hu
              rcases List.mem_cons.mp hu with h1 | h2
              · exact ⟨_, h1⟩
              · exact htail u h2

theorem afterQuery_next (base b : String) (hbase : ∀ c ∈ base.data, c ≠ '?') :
    afterQuery (cards_next_url base b).data =
      ("bookmark".data ++ '=' :: b.data) ++ '&' :: ("limit".data ++ '=' :: "100".data) := by
  have h2 : "/cards?bookmark=".data = "/cards".data ++ '?' :: "bookmark".data ++ ['='] := by
    decide
  have h3 : "&limit=100".data = '&' :: "limit".data ++ ['='] ++ "100".data := by decide
  have h1 : (cards_next_url base b).data =
      (base.data ++ "/cards".data) ++ '?' ::
        (("bookmark".data ++ '=' :: b.data) ++ '&' :: ("limit".data ++ '=' :: "100".data)) := by
    simp [cards_next_url, String.data_append, h2, h3]
  rw [h1, afterQuery_append]
  · simp [afterQuery]
  · intro x hx
    rcases List.mem_append.mp hx with h | h
    · exact hbase x h
    · exact (by decide : ∀ c ∈ "/cards".data, c ≠ '?') x h

theorem afterQuery_first (base deckId : String) (hbase : ∀ c ∈ base.data, c ≠ '?') :
    afterQuery (cards_first_url base deckId).data =
      ("deck-id".data ++ '=' :: deckId.data) ++ '&' :: ("limit".data ++ '=' :: "100".data) := by
  have h2 : "/cards?deck-id=".data = "/cards".data ++ '?' :: "deck-id".data ++ ['='] := by
    decide
  have h3 : "&limit=100".data = '&' :: "limit".data ++ ['='] ++ "100".data := by decide
  have h1 : (cards_first_url base deckId).data =
      (base.data ++ "/cards".data) ++ '?' ::
        (("deck-id".data ++ '=' :: deckId.data) ++ '&' :: ("limit".data ++ '=' :: "100".data)) := by
    simp [cards_first_url, String.data_append, h2, h3]
  rw [h1, afterQuery_append]
  · simp [afterQuery]
  · intro x hx
    rcases List.mem_append.mp hx with h | h
    · exact hbase x h
    · exact (by decide : ∀ c ∈ "/cards".data, c ≠ '?') x h

theorem queryParams_of_pair (name : String) (v : List Char)
    (hname : ∀ c ∈ name.data, ¬ c = '=' ∧ ¬ c = '&') (hv : ∀ c ∈ v, ¬ c = '&' ∧ ¬ c = '=') :
    splitOnP (fun c => c == '&')
        ((name.data ++ '=' :: v) ++ '&' :: ("limit".data ++ '=' :: "100".data)) =
      [name.data ++ '=' :: v, "limit".data ++ '=' :: "100".data] := by
  rw [splitOnP_append_sep]
  · rw [splitOnP_of_none]
    intro x hx
    have he : "limit".data ++ '=' :: "100".data = "limit=100".data := by decide
    rw [he] at hx
    exact beq_eq_false_iff_ne.mpr ((by decide : ∀ c ∈ "limit=100".data, c ≠ '&') x hx)
  · intro x hx
    rcases List.mem_append.mp hx with h | h
    · exact beq_eq_false_iff_ne.mpr (hname x h).2
    · rcases List.mem_cons.mp h with h1 | h2
      · subst h1; decide
      · exact beq_eq_false_iff_ne.mpr (hv x h2).1
  · decide

theorem queryParams_next (base b : String) (hbase : ∀ c ∈ base.data, c ≠ '?')
    (hb : urlToken b) :
    queryParams (cards_next_url base b) = [("bookmark", b), ("limit", "100")] := by
  unfold queryParams
  rw [afterQuery_next base b hbase,
    queryParams_of_pair "bookmark" b.data (by decide)
      (fun c hc => ⟨(hb c hc).2.1, (hb c hc).2.2⟩)]
  simp only [List.map]
  rw [paramKey_append _ _ (by decide : ∀ x ∈ "bookmark".data, x ≠ '='),
    paramVal_append _ _ (by decide : ∀ x ∈ "bookmark".data, x ≠ '=')]
  have hlast : (String.mk (paramKey ("limit".data ++ '=' :: "100".data)),
      String.mk (paramVal ("limit".data ++ '=' :: "100".data))) = ("limit", "100") := by
    decide
  rw [hlast]

theorem queryParams_first (base deckId : String) (hbase : ∀ c ∈ base.data, c ≠ '?')
    (hd : urlToken deckId) :
    queryParams (cards_first_url base deckId) = [("deck-id", deckId), ("limit", "100")] := by
  unfold queryParams
  rw [afterQuery_first base deckId hbase,
    queryParams_of_pair "deck-id" deckId.data (by decide)
      (fun c hc => ⟨(hd c hc).2.1, (hd c hc).2.2⟩)]
  simp only [List.map]
  rw [paramKey_append _ _ (by decide : ∀ x ∈ "deck-id".data, x ≠ '='),
    paramVal_append _ _ (by decide : ∀ x ∈ "deck-id".data, x ≠ '=')]
  have hlast : (String.mk (paramKey ("limit".data ++ '=' :: "100".data)),
      String.mk (paramVal ("limit".data ++ '=' :: "100".data))) = ("limit", "100") := by
    decide
  rw [hlast]

/-- C4 as amended: the first page request of get_cards carries the deck-id
filter and the limit-100 page size, but every bookmark-continuation request
carries only the bookmark cursor and the limit — the deck-id filter is
dropped from continuation URLs. Every URL get_cards ever requests is the
first-page URL or a bookmark-continuation URL. -/
theorem c4_continuation_lacks_deck_id {α : Type} (base deckId b : String)
    (hbase : ∀ c ∈ base.data, c ≠ '?') (hd : urlToken deckId) (hb : urlToken b) :
    queryParams (cards_first_url base deckId) =
      [("deck-id", deckId), ("limit", "100")] ∧
    queryParams (cards_next_url base b) = [("bookmark", b), ("limit", "100")] ∧
    getParam (cards_first_url base deckId) "deck-id" = some deckId ∧
    getParam (cards_next_url base b) "deck-id" = none ∧
    getParam (cards_next_url base b) "limit" = some "100" ∧
    (∀ (fuel : Nat) (url : String) (server : List (AttemptRes α))
      (r : Except PyErr (List α)) (us : List String),
      get_cards_aux base fuel url server = some (r, us) →
      ∃ tail, us = url :: tail ∧ ∀ u ∈ tail, ∃ b2, u = cards_next_url base b2) := by
  have hqf := queryParams_first base deckId hbase hd
  have hqn := queryParams_next base b hbase hb
  refine ⟨hqf, hqn, ?_, ?_, ?_, fun fuel => get_cards_aux_urls base fuel⟩
  · unfold getParam
    rw [hqf]
    rfl
  · unfold getParam
    rw [hqn]
    rfl
  · unfold getParam
    rw [hqn]
    rfl

/-- Cards server of the C4 counterexample: one page with a bookmark, then a
final page. -/
def c4Server : List (AttemptRes PyVal) :=
  [okResp ⟨[.str "c1"], some "b1"⟩, okResp ⟨[.str "c2"], none⟩]

/-- C4 counterexample: in a concrete two-page fetch the continuation request
URL has no deck-id parameter at all, refuting the claim that every page
request carries the deck-id filter. -/
theorem c4_counterexample :
    get_cards "https://app.mochi.cards/api" "deckX" 2 c4Server =
      some (.ok [.str "c1", .str "c2"],
        ["https://app.mochi.cards/api/cards?deck-id=deckX&limit=100",
         "https://app.mochi.cards/api/cards?bookmark=b1&limit=100"]) ∧
    getParam "https://app.mochi.cards/api/cards?bookmark=b1&limit=100" "deck-id" = none ∧
    getParam "https://app.mochi.cards/api/cards?deck-id=deckX&limit=100" "deck-id" =
      some "deckX" := by
  refine ⟨rfl, by decide, by decide⟩

/-- C4 witness: the amended statement at concrete base URL, deck id and
bookmark. -/
theorem c4_continuation_lacks_deck_id_witness :
    (∀ c ∈ "https://app.mochi.cards/api".data, c ≠ '?') ∧
    urlToken "deckX" ∧ urlToken "b1" ∧
    (queryParams (cards_first_url "https://app.mochi.cards/api" "deckX") =
      [("deck-id", "deckX"), ("limit", "100")] ∧
    queryParams (cards_next_url "https://app.mochi.cards/api" "b1") =
      [("bookmark", "b1"), ("limit", "100")] ∧
    getParam (cards_first_url "https://app.mochi.cards/api" "deckX") "deck-id" =
      some "deckX" ∧
    getParam (cards_next_url "https://app.mochi.cards/api" "b1") "deck-id" = none ∧
    getParam (cards_next_url "https://app.mochi.cards/api" "b1") "limit" = some "100" ∧
    (∀ (fuel : Nat) (url : String) (server : List (AttemptRes PyVal))
      (r : Except PyErr (List PyVal)) (us : List String),
      get_cards_aux "https://app.mochi.cards/api" fuel url server = some (r, us) →
      ∃ tail, us = url :: tail ∧
        ∀ u ∈ tail, ∃ b2, u = cards_next_url "https://app.mochi.cards/api" b2)) := by
  refine ⟨by decide, by decide, by decide, ?_⟩
  exact c4_continuation_lacks_deck_id "https://app.mochi.cards/api" "deckX" "b1"
    (by decide) (by decide) (by decide)

theorem except_bind_ok {ε α β : Type} (e : Except ε α) (f : α → Except ε β) (v : β) :
    (e >>= f) = .ok v ↔ ∃ a, e = .ok a ∧ f a = .ok v := by
  cases e with
  | error err => simp [Bind.bind, Except.bind]
  | ok a => simp [Bind.bind, Except.bind]

/-- C5 as amended: the parser's hanzi is computed from the value string of
the first entry of card.fields whose key is not exactly "name" (the entry
order of the mapping), by deleting every occurrence of an uppercase V
together with its adjacent whitespace — a V inside a longer word is removed
too, the regex being any-V rather than standalone-token — and trimming the
result; when no non-name field exists, hanzi is the empty string. The first
conjunct characterizes the field-scanning loop by List.find?; the second
ties the hanzi slot of a successful extraction to that loop over the
entries of card.fields. -/
theorem c5_hanzi_rule :
    (∀ fields : List (String × PyVal),
      hanziLoop fields =
        match fields.find? (fun p => p.1 != "name") with
        | none => Except.ok ""
        | some kv =>
          (pyGet kv.2 "value" (.str "")).bind (fun fv => (pyStr fv).map stripVStr)) ∧
    (∀ (card : PyVal) (pinyin hanzi : String) (meaning : PyVal) (added : String),
      extractParts card = .ok (pinyin, hanzi, meaning, added) →
      ∃ fv entries, pyGet card "fields" (.obj []) = .ok fv ∧
        pyItems fv = .ok entries ∧ hanziLoop entries = .ok hanzi) := by
  constructor
  · intro fields
    induction fields with
    | nil => rfl
    | cons kv rest ih =>
      obtain ⟨k, v⟩ := kv
      by_cases hk : k = "name"
      · simp [hanziLoop, List.find?, hk] at ih ⊢
        exact ih
      · have hkb : (k != "name") = true := by simp [hk]
        cases hg : pyGet v "value" (.str "") with
        | error e =>
          simp [hanziLoop, List.find?, hkb, hk, Bind.bind, Except.bind, Except.map, hg]
        | ok fv =>
          cases hs : pyStr fv with
          | error e =>
            simp [hanziLoop, List.find?, hkb, hk, Bind.bind, Except.bind, Except.map, hg, hs]
          | ok s =>
            simp [hanziLoop, List.find?, hkb, hk, Bind.bind, Except.bind, Except.map,
              Pure.pure, Except.pure, hg, hs]
  · intro card pinyin hanzi meaning added h
    unfold extractParts at h
    obtain ⟨cc, h1, h⟩ := (except_bind_ok _ _ _).mp h
    obtain ⟨pyn, h2, h⟩ := (except_bind_ok _ _ _).mp h
    obtain ⟨entries, h3, h⟩ := (except_bind_ok _ _ _).mp h
    obtain ⟨piny, h4, h⟩ := (except_bind_ok _ _ _).mp h
    obtain ⟨fv, h5, h⟩ := (except_bind_ok _ _ _).mp h
    obtain ⟨fents, h6, h⟩ := (except_bind_ok _ _ _).mp h
    obtain ⟨hz, h7, h⟩ := (except_bind_ok _ _ _).mp h
    obtain ⟨m0, h8, h⟩ := (except_bind_ok _ _ _).mp h
    obtain ⟨m1, h9, h⟩ := (except_bind_ok _ _ _).mp h
    obtain ⟨ad, h10, h⟩ := (except_bind_ok _ _ _).mp h
    simp only [Except.ok.injEq, Prod.mk.injEq] at h
    exact ⟨fv, fents, h5, h6, by rw [h7, h.2.1]⟩

/-- Card of the C5 counterexample: its only field value is the word loVe,
whose interior V the claim says is preserved. -/
def c5Card : PyVal :=
  .obj [("fields", .obj [("f1", .obj [("value", .str "loVe")])])]

/-- C5 counterexample: the V inside the longer word loVe is removed (the
parsed hanzi is loe, not loVe), refuting the claim that only standalone V
tokens are stripped. -/
theorem c5_counterexample :
    (parse_card c5Card).1 = some ⟨"", "loe", "", ""⟩ ∧ "loe" ≠ "loVe" :=
  ⟨by decide, by decide⟩

/-- C5 witness: the second conjunct of the hanzi rule applied to the
spec's example card, whose extraction succeeds. -/
theorem c5_hanzi_rule_witness :
    extractParts c5Card = .ok ("", "loe", .str "", "") ∧
    (∃ fv entries, pyGet c5Card "fields" (.obj []) = .ok fv ∧
      pyItems fv = .ok entries ∧ hanziLoop entries = .ok "loe") :=
  ⟨rfl, c5_hanzi_rule.2 c5Card "" "loe" (.str "") "" rfl⟩

/-- C6: parse_card returns None exactly when the extraction raised an
exception or pinyin, hanzi and meaning are all empty (falsy) after
extraction; in both None cases the diagnostic log of that call is non-empty
and carries the raw card content; a record with one or two empty fields
among the three is still returned; and one card's outcome never affects the
others — the filtering loop of write_vocab_to_file is the filterMap of
parse_card over the cards, so a malformed card drops only itself. -/
theorem c6_parse_null_rule :
    (∀ card : PyVal,
      (parse_card card).1 = none ↔
        (∃ e, extractParts card = .error e) ∨
        (∃ pinyin hanzi meaning added,
          extractParts card = .ok (pinyin, hanzi, meaning, added) ∧
          pinyin = "" ∧ hanzi = "" ∧ pyFalsy meaning = true)) ∧
    (∀ card : PyVal, (parse_card card).1 = none →
      (parse_card card).2 =
        ["Error parsing card: " ++ (match extractParts card with
          | .error e => e
          | .ok _ => "") ++ ". Raw card: " ++ jsonDumps card] ∨
      (parse_card card).2 =
        ["Skipping card due to missing fields: " ++ jsonDumps card]) ∧
    (∀ (card : PyVal) (pinyin hanzi : String) (meaning : PyVal) (added : String),
      extractParts card = .ok (pinyin, hanzi, meaning, added) →
      ¬ (pinyin = "" ∧ hanzi = "" ∧ pyFalsy meaning = true) →
      (parse_card card).1 = some ⟨pinyin, hanzi, pyFStr meaning, added⟩) ∧
    (∀ (pre post : List PyVal) (c : PyVal),
      valid_cards (pre ++ c :: post) =
        valid_cards pre ++ ((parse_card c).1).toList ++ valid_cards post) := by
  refine ⟨?_, ?_, ?_, ?_⟩
  · intro card
    cases hx : extractParts card with
    | error e =>
      simp [parse_card, hx]
    | ok parts =>
      obtain ⟨p, h, m, a⟩ := parts
      by_cases hcond : p = "" ∧ h = "" ∧ pyFalsy m = true
      · constructor
        · intro _
          exact Or.inr ⟨p, h, m, a, rfl, hcond⟩
        · intro _
          simp only [parse_card, hx, if_pos hcond]
      · constructor
        · intro hno
          simp only [parse_card, hx, if_neg hcond] at hno
          exact Option.noConfusion hno
        · rintro (⟨e, he⟩ | ⟨p', h', m', a', heq, hp, hh, hm⟩)
          · exact Except.noConfusion he
          · obtain ⟨hp2, hh2, hm2, ha2⟩ : p = p' ∧ h = h' ∧ m = m' ∧ a = a' := by
              have := Except.ok.inj heq
              simpa using this
            subst hp2
            subst hh2
            subst hm2
            exact absurd ⟨hp, hh, hm⟩ hcond
  · intro card hnone
    cases hx : extractParts card with
    | error e => simp [parse_card, hx]
    | ok parts =>
      obtain ⟨p, h, m, a⟩ := parts
      by_cases hcond : p = "" ∧ h = "" ∧ pyFalsy m = true
      · simp [parse_card, hx, hcond]
      · simp only [parse_card, hx, if_neg hcond] at hnone
        exact Option.noConfusion hnone
  · intro card p h m a hx hcond
    simp [parse_card, hx, hcond]
  · intro pre post c
    simp only [valid_cards, List.filterMap_append, List.filterMap_cons, List.append_assoc,
      List.append_cancel_left_eq]
    cases hc : (parse_card c).1 with
    | none => simp
    | some r => simp

/-- Card of the C6 witness with exactly one non-empty extracted field. -/
def c6Card : PyVal :=
  .obj [("fields", .obj [("f2", .obj [("value", .str "好")])])]

/-- C6 witness: the empty-dict card is discarded with a non-empty diagnostic
log, and a card with only hanzi non-empty is still returned. -/
theorem c6_parse_null_rule_witness :
    ((parse_card (PyVal.obj [])).1 = none ∧
      ((parse_card (PyVal.obj [])).2 =
        ["Error parsing card: " ++ (match extractParts (PyVal.obj []) with
          | .error e => e
          | .ok _ => "") ++ ". Raw card: " ++ jsonDumps (PyVal.obj [])] ∨
      (parse_card (PyVal.obj [])).2 =
        ["Skipping card due to missing fields: " ++ jsonDumps (PyVal.obj [])])) ∧
    (extractParts c6Card = .ok ("", "好", .str "", "") ∧
      ¬ ("" = "" ∧ "好" = "" ∧ pyFalsy (.str "") = true) ∧
      (parse_card c6Card).1 = some ⟨"", "好", pyFStr (.str ""), ""⟩) :=
  ⟨⟨by decide, c6_parse_null_rule.2.1 (PyVal.obj []) (by decide)⟩,
   ⟨rfl, by decide,
    c6_parse_null_rule.2.2.1 c6Card "" "好" (.str "") "" rfl (by decide)⟩⟩

theorem nl_false_of (l : List Char) (h : '\n' ∉ l) : ∀ x ∈ l, (x == '\n') = false := by
  intro x hx
  exact beq_eq_false_iff_ne.mpr (fun he => h (he ▸ hx))

theorem noNl_append (a b : List Char) (ha : '\n' ∉ a) (hb : '\n' ∉ b) :
    '\n' ∉ a ++ b := by
  simp [List.mem_append, ha, hb]

theorem splitLines_record (r : ParsedRec) (hr : recNoNewline r) (rest : List Char) :
    splitOnP (fun c => c == '\n') ((render_record r).data ++ rest) =
      recLines r ++ splitOnP (fun c => c == '\n') rest := by
  obtain ⟨h1, h2, h3, h4⟩ := hr
  have hnl : "\n".data = ['\n'] := rfl
  have hdata : (render_record r).data ++ rest =
      ("Pinyin: ".data ++ r.pinyin.data) ++ '\n' ::
        (("Hanzi: ".data ++ r.hanzi.data) ++ '\n' ::
          (("Meaning: ".data ++ r.meaning.data) ++ '\n' ::
            (("Added: ".data ++ r.added.data) ++ '\n' :: rest))) := by
    simp [render_record, String.data_append, hnl]
  rw [hdata]
  rw [splitOnP_append_sep _ _ _ _
    (nl_false_of _ (noNl_append _ _ (by decide) h1)) (by decide)]
  rw [splitOnP_append_sep _ _ _ _
    (nl_false_of _ (noNl_append _ _ (by decide) h2)) (by decide)]
  rw [splitOnP_append_sep _ _ _ _
    (nl_false_of _ (noNl_append _ _ (by decide) h3)) (by decide)]
  rw [splitOnP_append_sep _ _ _ _
    (nl_false_of _ (noNl_append _ _ (by decide) h4)) (by decide)]
  rfl

theorem splitLines_vocab (rs : List ParsedRec) (hne : rs ≠ [])
    (h : ∀ r ∈ rs, recNoNewline r) :
    splitOnP (fun c => c == '\n') (render_vocab rs).data = vocabLines rs ++ [[]] := by
  induction rs with
  | nil => contradiction
  | cons r rest ih =>
    cases rest with
    | nil =>
      have hrec := splitLines_record r (h r (by simp)) []
      rw [List.append_nil] at hrec
      show splitOnP (fun c => c == '\n') (render_record r).data = recLines r ++ [[]]
      rw [hrec]
      rfl
    | cons r2 rest2 =>
      have hr : recNoNewline r := h r (by simp)
      have hrest : ∀ q ∈ r2 :: rest2, recNoNewline q :=
        fun q hq => h q (List.mem_cons_of_mem r hq)
      have hih := ih (by simp) hrest
      show splitOnP (fun c => c == '\n')
          (render_record r ++ "---\n" ++ render_vocab (r2 :: rest2)).data =
        (recLines r ++ ["---".data] ++ vocabLines (r2 :: rest2)) ++ [[]]
      have hdata : (render_record r ++ "---\n" ++ render_vocab (r2 :: rest2)).data =
          (render_record r).data ++
            ("---".data ++ '\n' :: (render_vocab (r2 :: rest2)).data) := by
        have hsep : "---\n".data = "---".data ++ ['\n'] := by decide
        simp [String.data_append, hsep]
      rw [hdata, splitLines_record r hr,
        splitOnP_append_sep _ _ _ _ (by decide) (by decide), hih]
      simp

theorem label_ne_sep (c : Char) (ltail v : List Char) (hc : c ≠ '-') :
    (((c :: ltail) ++ v) == "---".data) = false := by
  apply beq_eq_false_iff_ne.mpr
  intro he
  have hh : c = '-' := by
    have := congrArg List.head? he
    simpa using this
  exact hc hh

theorem recLines_not_sep (r : ParsedRec) :
    ∀ piece ∈ recLines r, (piece == "---".data) = false := by
  intro piece hp
  simp only [recLines, List.mem_cons, List.not_mem_nil, or_false] at hp
  rcases hp with h | h | h | h <;> subst h
  · exact label_ne_sep 'P' "inyin: ".data r.pinyin.data (by decide)
  · exact label_ne_sep 'H' "anzi: ".data r.hanzi.data (by decide)
  · exact label_ne_sep 'M' "eaning: ".data r.meaning.data (by decide)
  · exact label_ne_sep 'A' "dded: ".data r.added.data (by decide)

theorem blocks_vocab (rs : List ParsedRec) (hne : rs ≠ []) :
    splitOnP (fun l => l == "---".data) (vocabLines rs) = rs.map recLines := by
  induction rs with
  | nil => contradiction
  | cons r rest ih =>
    cases rest with
    | nil =>
      show splitOnP (fun l => l == "---".data) (recLines r) = [recLines r]
      exact splitOnP_of_none _ _ (recLines_not_sep r)
    | cons r2 rest2 =>
      show splitOnP (fun l => l == "---".data)
          (recLines r ++ ["---".data] ++ vocabLines (r2 :: rest2)) =
        recLines r :: (r2 :: rest2).map recLines
      rw [List.append_assoc, List.singleton_append,
        splitOnP_append_sep _ _ _ _ (recLines_not_sep r) (by decide),
        ih (by simp)]

theorem stripLastEmpty_append (ls : List (List Char)) :
    stripLastEmpty (ls ++ [[]]) = ls := by
  simp [stripLastEmpty, List.reverse_append]

theorem readBlock_recLines (r : ParsedRec) : readBlock (recLines r) = some r := by
  simp only [recLines, readBlock]
  rw [if_pos ⟨List.take_left' (show ("Pinyin: ".data).length = 8 by decide),
      List.take_left' (show ("Hanzi: ".data).length = 7 by decide),
      List.take_left' (show ("Meaning: ".data).length = 9 by decide),
      List.take_left' (show ("Added: ".data).length = 7 by decide)⟩,
    List.drop_left' (show ("Pinyin: ".data).length = 8 by decide),
    List.drop_left' (show ("Hanzi: ".data).length = 7 by decide),
    List.drop_left' (show ("Meaning: ".data).length = 9 by decide),
    List.drop_left' (show ("Added: ".data).length = 7 by decide)]

/-- C8 as amended: for every list of N parsed records none of whose fields
contains a newline character, the writer emits for each record in input
order exactly the four labelled lines and a separator line of three dashes
between consecutive records with none after the last, so re-reading the
content and splitting on the separator lines yields exactly N blocks, each
reconstructable by the four labelled lines to the original record in the
original order. A record field containing a newline breaks the block
structure, which forces the no-newline proviso. -/
theorem c8_round_trip (rs : List ParsedRec) (h : ∀ r ∈ rs, recNoNewline r) :
    (blocksOf (fileLinesOf (render_vocab rs))).length = rs.length ∧
    (blocksOf (fileLinesOf (render_vocab rs))).map readBlock = rs.map some := by
  cases rs with
  | nil => exact ⟨rfl, rfl⟩
  | cons r rest =>
    have hne : (r :: rest) ≠ [] := by simp
    have hlines : fileLinesOf (render_vocab (r :: rest)) = vocabLines (r :: rest) := by
      unfold fileLinesOf
      rw [splitLines_vocab (r :: rest) hne h, stripLastEmpty_append]
    have hvne : vocabLines (r :: rest) ≠ [] := by
      cases rest <;> simp [vocabLines, recLines]
    rw [hlines]
    unfold blocksOf
    rw [if_neg hvne, blocks_vocab (r :: rest) hne]
    constructor
    · simp
    · simp [List.map_map, Function.comp_def, readBlock_recLines]

/-- Record of the C8 counterexample: its meaning field contains an embedded
separator line. -/
def c8BadRec : ParsedRec := ⟨"", "", "a\n---\nb", ""⟩

/-- C8 counterexample: writing the single record whose meaning embeds a
newline-separated three-dash line and re-reading yields 2 blocks, not 1,
refuting the claim for records with arbitrary field content. -/
theorem c8_counterexample :
    [c8BadRec].length = 1 ∧
    (blocksOf (fileLinesOf (render_vocab [c8BadRec]))).length = 2 ∧
    (2 : Nat) ≠ 1 :=
  ⟨rfl, by decide, by decide⟩

/-- Records of the C8 witness. -/
def c8Recs : List ParsedRec :=
  [⟨"méi", "没", "not", "2023-01-01 10:00:00"⟩, ⟨"", "", "x", ""⟩]

/-- C8 witness: two newline-free records round-trip to exactly two blocks
reconstructing the records in order. -/
theorem c8_round_trip_witness :
    (∀ r ∈ c8Recs, recNoNewline r) ∧
    ((blocksOf (fileLinesOf (render_vocab c8Recs))).length = c8Recs.length ∧
      (blocksOf (fileLinesOf (render_vocab c8Recs))).map readBlock = c8Recs.map some) :=
  ⟨by decide, c8_round_trip c8Recs (by decide)⟩

/-- C9: a run that fails with a fatal error before the write step — during
the configuration load, the deck resolution, or the card fetch — performs
no file operation at all, so the file at the configured output path is
neither created nor modified; and the write step is the only operation of
the embedding that opens a file: a run ending normally with no cards opens
none, and a completed run opens exactly the configured output file once. -/
theorem c9_no_file_before_write :
    (∀ (cfg : MochiConfig) (w : World) (fuel : Nat) (res : RunResult) (e : PyErr),
      main_run cfg w fuel = some res → res.outcome = .caught e → res.files = []) ∧
    (∀ (env : List (String × String)) (w : World) (fuel : Nat) (msg : String),
      load_config env = .error msg → runProcess env w fuel = some ⟨1, []⟩) ∧
    (∀ (cfg : MochiConfig) (w : World) (fuel : Nat) (res : RunResult),
      main_run cfg w fuel = some res → res.outcome = .noCards → res.files = []) ∧
    (∀ (cfg : MochiConfig) (w : World) (fuel : Nat) (res : RunResult),
      main_run cfg w fuel = some res →
      res.files = [] ∨ ∃ content, res.files = [(cfg.output_file, content)]) := by
  have hmain : ∀ (cfg : MochiConfig) (w : World) (fuel : Nat) (res : RunResult),
      main_run cfg w fuel = some res →
      (res.files = [] ∧ res.outcome ≠ .completed) ∨
        (∃ content, res.files = [(cfg.output_file, content)]) := by
    intro cfg w fuel res hrun
    unfold main_run at hrun
    split at hrun
    · exact Option.noConfusion hrun
    · cases Option.some.inj hrun
      exact Or.inl ⟨rfl, by simp⟩
    · split at hrun
      · exact Option.noConfusion hrun
      · cases Option.some.inj hrun
        exact Or.inl ⟨rfl, by simp⟩
      · split at hrun
        · cases Option.some.inj hrun
          exact Or.inl ⟨rfl, by simp⟩
        · cases Option.some.inj hrun
          exact Or.inr ⟨_, rfl⟩
  refine ⟨?_, ?_, ?_, ?_⟩
  · intro cfg w fuel res e hrun hout
    unfold main_run at hrun
    split at hrun
    · exact Option.noConfusion hrun
    · cases Option.some.inj hrun
      rfl
    · split at hrun
      · exact Option.noConfusion hrun
      · cases Option.some.inj hrun
        rfl
      · split at hrun
        · cases Option.some.inj hrun
          rfl
        · cases Option.some.inj hrun
          simp at hout
  · intro env w fuel msg hload
    unfold runProcess
    rw [hload]
  · intro cfg w fuel res hrun hout
    unfold main_run at hrun
    split at hrun
    · exact Option.noConfusion hrun
    · cases Option.some.inj hrun
      rfl
    · split at hrun
      · exact Option.noConfusion hrun
      · cases Option.some.inj hrun
        rfl
      · split at hrun
        · cases Option.some.inj hrun
          rfl
        · cases Option.some.inj hrun
          simp at hout
  · intro cfg w fuel res hrun
    rcases hmain cfg w fuel res hrun with ⟨hf, _⟩ | ⟨content, hf⟩
    · exact Or.inl hf
    · exact Or.inr ⟨content, hf⟩

/-- C9 witness: the run whose decks request fails with HTTP 500 performs no
file operation, and the run with a missing API key exits 1 having written
nothing. -/
theorem c9_no_file_before_write_witness :
    main_run cfg0 errWorld 1 =
      some ⟨.caught (.httpError "decks" 500 "oops"), []⟩ ∧
    (⟨.caught (.httpError "decks" 500 "oops"), []⟩ : RunResult).files = [] ∧
    load_config [] =
      .error "Configuration error: Ensure MOCHI_API_KEY is set in .env or environment variables." ∧
    runProcess [] errWorld 1 = some ⟨1, []⟩ :=
  ⟨rfl,
    c9_no_file_before_write.1 cfg0 errWorld 1
      ⟨.caught (.httpError "decks" 500 "oops"), []⟩ (.httpError "decks" 500 "oops") rfl rfl,
    rfl,
    c9_no_file_before_write.2.1 [] errWorld 1
      "Configuration error: Ensure MOCHI_API_KEY is set in .env or environment variables." rfl⟩
